import Mathlib

/-!
Verification of the SIID self-update subsystem.

The definitions below are a shallow embedding of the update-engine sources:
`src/vs/platform/update/electron-main/abstractUpdateService.ts` (feed parsing,
asset selection, the abstract state-machine guards), the Win32 update service
and the IPC bridge in `src/vs/platform/update/common/updateIpc.ts`, the Darwin
update service in `src/vs/platform/update/electron-main/updateService.darwin.ts`,
and the older variant of the abstract service kept in the repository
(`Ungated` namespace below).  Pure functions become Lean functions; the
effectful check/download cycles become functions from an explicit environment
(describing the outcomes of network requests, the file cache, configuration
flags) to an ordered trace of effect events.
-/

namespace Siid

/-! ## String primitives with JavaScript semantics

The TypeScript sources use `String.prototype.startsWith`, `endsWith`,
`includes`, `substring(1)` and `replace(pattern, '')` (first occurrence only).
These are embedded over `List Char` so that they compute by kernel reduction.
-/

/-- JavaScript `s.includes(pat)`: `pat` occurs as a contiguous substring of `s`. -/
def listContainsSub : List Char → List Char → Bool
  | [], pat => pat.isEmpty
  | c :: rest, pat => pat.isPrefixOf (c :: rest) || listContainsSub rest pat

/-- JavaScript `s.replace(pat, '')`: remove the first occurrence of `pat`, if any. -/
def listReplaceFirst : List Char → List Char → List Char
  | [], _ => []
  | c :: rest, pat =>
    if pat.isPrefixOf (c :: rest) then (c :: rest).drop pat.length
    else c :: listReplaceFirst rest pat

def strStartsWith (s pat : String) : Bool := pat.data.isPrefixOf s.data

def strEndsWith (s pat : String) : Bool := pat.data.isSuffixOf s.data

def strContains (s pat : String) : Bool := listContainsSub s.data pat.data

def strReplaceFirst (s pat : String) : String := ⟨listReplaceFirst s.data pat.data⟩

/-- JavaScript `s.substring(1)` (used on the release tag to drop a leading `v`). -/
def strDropOne (s : String) : String := ⟨s.data.drop 1⟩

/-- JavaScript truthiness of an optional string: `undefined` and `''` are falsy. -/
def isTruthy : Option String → Bool
  | none => false
  | some s => !s.isEmpty

/-! ## Data model (`src/vs/platform/update/common/update.ts` shapes as used by the sources) -/

inductive UpdateType
  | Setup
  | Archive
  deriving DecidableEq, Repr

inductive DisablementReason
  | NotBuilt
  | DisabledByEnvironment
  | ManuallyDisabled
  | MissingConfiguration
  | InvalidConfiguration
  | RunningAsAdmin
  deriving DecidableEq, Repr

/-- The `update.mode` configuration value. -/
inductive UpdateMode
  | noneMode
  | manual
  | start
  | defaultMode
  deriving DecidableEq, Repr

/-- The normalized update descriptor (`IUpdate`). -/
structure IUpdate where
  version : String
  productVersion : String
  timestamp : Option Int := none
  url : Option String := none
  sha256hash : Option String := none
  deriving DecidableEq, Repr

/-- The update state machine's tagged union of states (`State`). -/
inductive State
  | Uninitialized
  | Disabled (reason : DisablementReason)
  | Idle (updateType : UpdateType) (error : Option String := none)
  | CheckingForUpdates (explicit : Bool)
  | AvailableForDownload (update : IUpdate)
  | Downloading
  | Downloaded (update : IUpdate)
  | Updating (update : IUpdate)
  | Ready (update : IUpdate)
  deriving DecidableEq, Repr

/-- The `StateType` discriminant enumeration. -/
inductive StateType
  | Uninitialized
  | Disabled
  | Idle
  | CheckingForUpdates
  | AvailableForDownload
  | Downloading
  | Downloaded
  | Updating
  | Ready
  deriving DecidableEq, Repr

/-- The `type` tag of a state value. -/
def State.type : State → StateType
  | .Uninitialized => .Uninitialized
  | .Disabled _ => .Disabled
  | .Idle _ _ => .Idle
  | .CheckingForUpdates _ => .CheckingForUpdates
  | .AvailableForDownload _ => .AvailableForDownload
  | .Downloading => .Downloading
  | .Downloaded _ => .Downloaded
  | .Updating _ => .Updating
  | .Ready _ => .Ready

/-- A GitHub release asset (`GitHubAsset`). -/
structure GitHubAsset where
  name : String
  browser_download_url : String
  size : Nat := 0
  digest : Option String := none
  deriving DecidableEq, Repr

/-- A GitHub release (`GitHubRelease`). -/
structure GitHubRelease where
  tag_name : String
  name : String := ""
  published_at : String := ""
  assets : List GitHubAsset
  prerelease : Bool
  deriving DecidableEq, Repr

/-- The fields of `IProductService` consulted by the update engine. -/
structure IProductService where
  version : String
  quality : String := "stable"
  target : String := "user"
  deriving DecidableEq, Repr

/-! ## Semantic-version comparison (modelled) -/

/-- Split a character list at every occurrence of the separator character. -/
def splitOnChar (sep : Char) : List Char → List (List Char)
  | [] => [[]]
  | c :: rest =>
    match splitOnChar sep rest with
    | [] => if c = sep then [[], []] else [[c]]
    | g :: gs => if c = sep then [] :: g :: gs else (c :: g) :: gs

/-- Decimal value of a digit list. -/
def digitsToNat (l : List Char) : Nat :=
  l.foldl (fun n c => n * 10 + (c.toNat - '0'.toNat)) 0

/-- Modelled from the spec: the semantic-version parser backing `semverGt`
(`gt` from `base/common/semver/semver`, which is not under `src/`).  Per the
spec, versions are compared "using semantic-version ordering" and the
comparison "fails to parse" on malformed input: a version is three dot-separated
non-empty decimal components. -/
def parseSemver (s : String) : Option (Nat × Nat × Nat) :=
  match splitOnChar '.' s.data with
  | [a, b, c] =>
    if !a.isEmpty && a.all Char.isDigit
        && !b.isEmpty && b.all Char.isDigit
        && !c.isEmpty && c.all Char.isDigit then
      some (digitsToNat a, digitsToNat b, digitsToNat c)
    else none
  | _ => none

/-- Modelled from the spec: `semverGt a b` compares two version strings by
semantic-version ordering ("reject if not strictly newer, or if the comparison
itself fails to parse"); it throws (`Except.error`) when either side does not
parse. -/
def semverGt (a b : String) : Except String Bool :=
  match parseSemver a, parseSemver b with
  | some x, some y =>
    Except.ok (x.1 > y.1 || (x.1 == y.1 && (x.2.1 > y.2.1
      || (x.2.1 == y.2.1 && x.2.2 > y.2.2))))
  | _, _ => Except.error "Invalid Version"

/-! ## Asset selection (`findAssetForPlatform`)

Shared verbatim by both observed variants of `abstractUpdateService.ts`.
Note the source falls through from the Windows branch to the Linux/macOS
branches when no Windows asset is found and the platform string happens to
also contain `linux` or `darwin`.
-/

def findAssetForPlatform (assets : List GitHubAsset) (platform : String)
    (product : IProductService) : Option GitHubAsset :=
  let winResult : Option GitHubAsset :=
    if strStartsWith platform "win32" then
      let named : Option GitHubAsset :=
        if product.target = "user" then
          match assets.find? (fun asset => asset.name = "SIIDUserSetup.exe") with
          | some a => some a
          | none => assets.find? (fun asset => strContains asset.name "UserSetup.exe")
        else
          match assets.find? (fun asset => asset.name = "SIIDSystemSetup.exe") with
          | some a => some a
          | none => assets.find? (fun asset => strContains asset.name "SystemSetup.exe")
      match named with
      | some a => some a
      | none =>
        assets.find? (fun asset =>
          strEndsWith asset.name ".exe" && !strEndsWith asset.name ".sha256")
    else none
  match winResult with
  | some a => some a
  | none =>
    let linuxResult : Option GitHubAsset :=
      if strContains platform "linux" then
        assets.find? (fun asset => strEndsWith asset.name ".tar.gz")
      else none
    match linuxResult with
    | some a => some a
    | none =>
      if strContains platform "darwin" then
        assets.find? (fun asset => strEndsWith asset.name ".dmg")
      else none

/-! ## Feed parsing (`parseGitHubReleaseToUpdate`)

Two variants exist in the repository.  The one in
`src/vs/platform/update/electron-main/abstractUpdateService.ts` gates the
parsed release on a semantic-version comparison against the running product
version; the older copy of the file (`src/unnamed/part_004`) does not.
`dateGetTime` abstracts JavaScript's `new Date(s).getTime()`.
-/

/-- The derived version: the release tag with a single leading `v` dropped. -/
def derivedVersion (tag : String) : String :=
  if strStartsWith tag "v" then strDropOne tag else tag

/-- The descriptor both variants build once a release passed their checks. -/
def buildUpdate (dateGetTime : String → Int) (release : GitHubRelease)
    (asset : GitHubAsset) : IUpdate :=
  { version := release.tag_name
    productVersion := derivedVersion release.tag_name
    timestamp := some (dateGetTime release.published_at)
    url := some asset.browser_download_url
    sha256hash := asset.digest.map (fun d => strReplaceFirst d "sha256:") }

/-- The version-gated variant (`abstractUpdateService.ts`, the copy imported by
the Win32 and Darwin services). -/
def parseGitHubReleaseToUpdate (dateGetTime : String → Int)
    (release : GitHubRelease) (platform : String)
    (product : IProductService) : Option IUpdate :=
  if release.prerelease then none
  else
    match findAssetForPlatform release.assets platform product with
    | none => none
    | some asset =>
      let version := derivedVersion release.tag_name
      match semverGt version product.version with
      | Except.error _ => none
      | Except.ok newer =>
        if !newer then none
        else some (buildUpdate dateGetTime release asset)

namespace Ungated

/-- The ungated variant (`src/unnamed/part_004`): no comparison against the
currently running version. -/
def parseGitHubReleaseToUpdate (dateGetTime : String → Int)
    (release : GitHubRelease) (platform : String)
    (product : IProductService) : Option IUpdate :=
  if release.prerelease then none
  else
    match findAssetForPlatform release.assets platform product with
    | none => none
    | some asset => some (buildUpdate dateGetTime release asset)

end Ungated

/-! ## Effect events

The effectful parts of the services are embedded as functions from an explicit
environment to an ordered trace of events: every `setState`, network request,
file operation, telemetry report and external-browser launch appears in the
trace in program order.
-/

inductive Event
  | stateSet (s : State)
  | request (url : String)
  | fileWrite (p : String)
  | fileRemove (p : String)
  | rename (src : String) (dst : String)
  | openExternal (url : String)
  | telemetry (messageHash : Nat)
  | spawnInstaller (pkg : String)
  deriving DecidableEq, Repr

/-- Boolean recognizer for file-removal events. -/
def Event.isFileRemove : Event → Bool
  | .fileRemove _ => true
  | _ => false

/-- The last state set by a trace, if any. -/
def lastStateSet (trace : List Event) : Option State :=
  trace.foldl (fun acc e => match e with | Event.stateSet s => some s | _ => acc) none

/-! ## The abstract service's guarded entry points (`AbstractUpdateService`)

These methods check the current state's tag and otherwise delegate to the
platform driver's hook, which is passed in as a function (the hooks are
abstract methods in the source).
-/

/-- `AbstractUpdateService.checkForUpdates`: no-op unless the state is `Idle`,
otherwise delegates to `doCheckForUpdates`. -/
def checkForUpdates (doCheckForUpdates : Bool → State → State × List Event)
    (explicit : Bool) (s : State) : State × List Event :=
  if s.type ≠ StateType.Idle then (s, [])
  else doCheckForUpdates explicit s

/-- `AbstractUpdateService.downloadUpdate`: no-op unless the state is
`AvailableForDownload`, otherwise delegates to `doDownloadUpdate` with the
current state's payload. -/
def downloadUpdate (doDownloadUpdate : IUpdate → State × List Event)
    (s : State) : State × List Event :=
  match s with
  | State.AvailableForDownload u => doDownloadUpdate u
  | _ => (s, [])

/-- `AbstractUpdateService.applyUpdate`: no-op unless the state is
`Downloaded`, otherwise delegates to `doApplyUpdate`. -/
def applyUpdate (doApplyUpdate : Unit → State × List Event)
    (s : State) : State × List Event :=
  if s.type ≠ StateType.Downloaded then (s, [])
  else doApplyUpdate ()

/-! ## The Win32 driver (`Win32UpdateService` in `updateIpc.ts`) -/

/-- The platform string the Win32 service builds
(`win32-${arch}` plus `-archive` or `-user`). -/
def winPlatform (arch : String) (updateType : UpdateType) (target : String) : String :=
  let platform := "win32-" ++ arch
  if updateType = UpdateType.Archive then platform ++ "-archive"
  else if target = "user" then platform ++ "-user"
  else platform

/-- Modelled from the spec: the checksum routine (`checksum` in
`base/node/crypto`, not under `src/`).  Per the spec, "the downloaded file's
digest must match exactly or the download is treated as a failure": the routine
compares the file's digest with the expected hash and throws on mismatch; it
performs no file operations of its own. -/
def checksumVerify (digestMatches : Bool) : Except String Unit :=
  if digestMatches then Except.ok () else Except.error "Hash mismatch"

/-- The environment a Win32 check cycle runs in: configuration, the outcome of
each external interaction, and the abstracted collaborators (`dateGetTime` for
`Date` parsing, `hashFn` for the telemetry message hash). -/
structure Win32Env where
  url : Option String
  isGitHub : Bool
  arch : String
  product : IProductService
  updateType : UpdateType
  githubResponse : Except String GitHubRelease
  vendorResponse : Except String (Option IUpdate)
  cacheDir : List String
  downloadOutcome : Except String Unit
  digestMatches : Bool
  fastUpdatesEnabled : Bool
  dateGetTime : String → Int
  hashFn : String → Nat

/-- The cached installer file name
(`CodeSetup-${quality}-${version}.exe` under the cache path). -/
def packageFileName (quality version : String) : String :=
  "CodeSetup-" ++ quality ++ "-" ++ version ++ ".exe"

/-- The flag file name (`CodeSetup-${quality}-${version}.flag`). -/
def flagFileName (quality version : String) : String :=
  "CodeSetup-" ++ quality ++ "-" ++ version ++ ".flag"

/-- `Win32UpdateService.cleanup(exceptVersion)`: delete every cached file whose
name does not end in `${quality}-${version}.exe`; failures are ignored. -/
def cleanupEvents (cacheDir : List String) (quality version : String) : List Event :=
  (cacheDir.filter (fun f => !strEndsWith f (quality ++ "-" ++ version ++ ".exe"))).map
    Event.fileRemove

/-- `Win32UpdateService.doCheckForUpdates`, as the ordered trace of effects of
one check cycle.  The asynchronous continuations of `doApplyUpdate` (the
ready-mutex poll and the installer-exit callback) happen outside the check
cycle's promise chain and are not part of this trace. -/
def win32DoCheckForUpdates (env : Win32Env) (explicit : Bool) : List Event :=
  match env.url with
  | none => []
  | some baseUrl =>
    let url := if explicit then baseUrl else baseUrl ++ "?bg=true"
    let head := [Event.stateSet (State.CheckingForUpdates explicit), Event.request url]
    let onError := fun (pre : List Event) (err : String) =>
      pre ++ [Event.telemetry (env.hashFn err),
        Event.stateSet (State.Idle env.updateType (if explicit then some err else none))]
    let responseUpdate : Except String (Option IUpdate) :=
      if env.isGitHub then
        env.githubResponse.map (fun release =>
          parseGitHubReleaseToUpdate env.dateGetTime release
            (winPlatform env.arch env.updateType env.product.target) env.product)
      else env.vendorResponse
    match responseUpdate with
    | Except.error err => onError head err
    | Except.ok updateOpt =>
      match updateOpt with
      | none => head ++ [Event.stateSet (State.Idle env.updateType none)]
      | some u =>
        if !(isTruthy u.url && !u.version.isEmpty && !u.productVersion.isEmpty) then
          head ++ [Event.stateSet (State.Idle env.updateType none)]
        else if env.updateType = UpdateType.Archive then
          head ++ [Event.stateSet (State.AvailableForDownload u)]
        else
          let pre := head ++ [Event.stateSet State.Downloading]
            ++ cleanupEvents env.cacheDir env.product.quality u.version
          let packageFile := packageFileName env.product.quality u.version
          let finish := fun (pre2 : List Event) =>
            pre2 ++ [Event.stateSet (State.Downloaded u)]
              ++ (if env.fastUpdatesEnabled then
                    (if env.product.target = "user" then
                      [Event.stateSet (State.Updating u),
                       Event.fileWrite (flagFileName env.product.quality u.version),
                       Event.spawnInstaller packageFile]
                    else [])
                  else [Event.stateSet (State.Ready u)])
          if env.cacheDir.contains packageFile then finish pre
          else
            let downloadPath := packageFile ++ ".tmp"
            match env.downloadOutcome with
            | Except.error err => onError (pre ++ [Event.request (u.url.getD "")]) err
            | Except.ok _ =>
              let pre2 := pre ++ [Event.request (u.url.getD ""),
                Event.fileWrite downloadPath]
              match (if isTruthy u.sha256hash then checksumVerify env.digestMatches
                     else Except.ok ()) with
              | Except.error err => onError pre2 err
              | Except.ok _ => finish (pre2 ++ [Event.rename downloadPath packageFile])

/-- `Win32UpdateService.doDownloadUpdate` (the archive-style path): open the
update URL externally, then go back to `Idle`. -/
def win32DoDownloadUpdate (updateType : UpdateType) (u : IUpdate) : State × List Event :=
  let opens := match u.url with
    | some link => [Event.openExternal link]
    | none => []
  (State.Idle updateType none,
    opens ++ [Event.stateSet (State.Idle updateType none)])

/-! ## The Darwin driver (`DarwinUpdateService`), GitHub branch of `doCheckForUpdates` -/

structure DarwinEnv where
  url : Option String
  isGitHub : Bool
  arch : String
  product : IProductService
  githubResponse : Except String GitHubRelease
  dateGetTime : String → Int

/-- `DarwinUpdateService.doCheckForUpdates`: on the GitHub branch the request
is made directly; on the native branch the work is handed to
`electron.autoUpdater` (whose later events are outside this call).  Note the
error handler attaches `err.message` to the `Idle` state unconditionally. -/
def darwinDoCheckForUpdates (env : DarwinEnv) (explicit : Bool) : List Event :=
  match env.url with
  | none => []
  | some baseUrl =>
    let head := [Event.stateSet (State.CheckingForUpdates explicit)]
    if env.isGitHub then
      let url := if explicit then baseUrl else baseUrl ++ "?bg=true"
      match env.githubResponse with
      | Except.error err =>
        head ++ [Event.request url,
          Event.stateSet (State.Idle UpdateType.Archive (some err))]
      | Except.ok release =>
        let update := parseGitHubReleaseToUpdate env.dateGetTime release
          ("darwin-" ++ env.arch) env.product
        match update with
        | none =>
          head ++ [Event.request url,
            Event.stateSet (State.Idle UpdateType.Archive none)]
        | some u =>
          if !(isTruthy u.url && !u.version.isEmpty && !u.productVersion.isEmpty) then
            head ++ [Event.request url,
              Event.stateSet (State.Idle UpdateType.Archive none)]
          else
            head ++ [Event.request url,
              Event.stateSet (State.AvailableForDownload u)]
    else head

/-! ## `AbstractUpdateService.isLatestVersion` (version-gated variant) -/

structure IsLatestEnv where
  url : Option String
  mode : UpdateMode
  isGitHub : Bool
  githubResponse : Except String GitHubRelease
  vendorStatus : Except String Nat
  product : IProductService

structure IsLatestResult where
  value : Option Bool
  events : List Event
  deriving DecidableEq, Repr

/-- `AbstractUpdateService.isLatestVersion`: a side-channel query.  It is given
the current state and returns it untouched (the method never calls `setState`).
`value = none` embeds the TypeScript `undefined`. -/
def isLatestVersion (env : IsLatestEnv) (s : State) : IsLatestResult × State :=
  match env.url with
  | none => (⟨none, []⟩, s)
  | some url =>
    if env.mode = UpdateMode.noneMode then (⟨some false, []⟩, s)
    else if env.isGitHub then
      match env.githubResponse with
      | Except.error _ => (⟨none, [Event.request url]⟩, s)
      | Except.ok release =>
        if release.prerelease then (⟨some false, [Event.request url]⟩, s)
        else
          let latestVersion := derivedVersion release.tag_name
          match semverGt latestVersion env.product.version with
          | Except.error _ => (⟨none, [Event.request url]⟩, s)
          | Except.ok isNewer => (⟨some (!isNewer), [Event.request url]⟩, s)
    else
      match env.vendorStatus with
      | Except.error _ => (⟨none, [Event.request url]⟩, s)
      | Except.ok statusCode => (⟨some (statusCode == 204), [Event.request url]⟩, s)

/-! ## The IPC bridge (`UpdateChannel` / `UpdateChannelClient` in `updateIpc.ts`) -/

/-- What `UpdateChannel.call` does for a given command string. -/
inductive ChannelReply
  | delegated (command : String)
  | initialState (s : State)
  deriving DecidableEq, Repr

/-- `UpdateChannel.call`: dispatch on the command name; `_getInitialState`
resolves immediately with the service's current state; an unknown command
throws. -/
def channelCall (serviceState : State) (command : String) : Except String ChannelReply :=
  if command = "checkForUpdates" then Except.ok (ChannelReply.delegated command)
  else if command = "downloadUpdate" then Except.ok (ChannelReply.delegated command)
  else if command = "applyUpdate" then Except.ok (ChannelReply.delegated command)
  else if command = "quitAndInstall" then Except.ok (ChannelReply.delegated command)
  else if command = "_getInitialState" then Except.ok (ChannelReply.initialState serviceState)
  else if command = "isLatestVersion" then Except.ok (ChannelReply.delegated command)
  else if command = "_applySpecificUpdate" then Except.ok (ChannelReply.delegated command)
  else Except.error ("Call not found: " ++ command)

/-- The renderer-side client's observable state (`UpdateChannelClient`). -/
structure UpdateChannelClient where
  state : State
  deriving DecidableEq, Repr

/-- A freshly constructed client starts at `State.Uninitialized`. -/
def UpdateChannelClient.new : UpdateChannelClient := ⟨State.Uninitialized⟩

/-- Processing the `_getInitialState` reply (or any `onStateChange`
notification) stores the received state. -/
def UpdateChannelClient.receive (_c : UpdateChannelClient) (s : State) :
    UpdateChannelClient := ⟨s⟩

/-! ## Claims -/

/-- C1: for every state whose tag is not `Idle` (in particular `Downloading`),
`checkForUpdates(explicit)` leaves the state unchanged and dispatches no
effects at all (so no feed request); it invokes the platform driver's
`doCheckForUpdates` hook exactly when the current state is `Idle`. -/
theorem claim1_checkForUpdates_guard
    (doCheckForUpdates : Bool → State → State × List Event)
    (explicit : Bool) (s : State) :
    (s.type ≠ StateType.Idle →
      checkForUpdates doCheckForUpdates explicit s = (s, []))
    ∧ (s.type = StateType.Idle →
      checkForUpdates doCheckForUpdates explicit s = doCheckForUpdates explicit s) := by
  constructor <;> intro h <;> simp [checkForUpdates, h]

theorem claim1_witness :
    checkForUpdates
      (fun explicit _ => (State.CheckingForUpdates explicit, [Event.request "feed"]))
      true State.Downloading = (State.Downloading, []) :=
  (claim1_checkForUpdates_guard
    (fun explicit _ => (State.CheckingForUpdates explicit, [Event.request "feed"]))
    true State.Downloading).1 (by decide)

/-- C2: for every GitHub release flagged prerelease, both observed variants of
`parseGitHubReleaseToUpdate` return `none`, for every platform, product
configuration and asset list. -/
theorem claim2_prerelease_rejected (dateGetTime : String → Int)
    (release : GitHubRelease) (platform : String) (product : IProductService)
    (h : release.prerelease = true) :
    parseGitHubReleaseToUpdate dateGetTime release platform product = none
    ∧ Ungated.parseGitHubReleaseToUpdate dateGetTime release platform product = none := by
  constructor <;>
    simp [parseGitHubReleaseToUpdate, Ungated.parseGitHubReleaseToUpdate, h]

theorem claim2_witness :
    parseGitHubReleaseToUpdate (fun _ => 0)
      { tag_name := "v9.9.9",
        assets := [{ name := "SIIDUserSetup.exe",
                     browser_download_url := "https://x/SIIDUserSetup.exe",
                     digest := some "sha256:abc" }],
        prerelease := true }
      "win32-x64" { version := "1.0.0" } = none
    ∧ Ungated.parseGitHubReleaseToUpdate (fun _ => 0)
      { tag_name := "v9.9.9",
        assets := [{ name := "SIIDUserSetup.exe",
                     browser_download_url := "https://x/SIIDUserSetup.exe",
                     digest := some "sha256:abc" }],
        prerelease := true }
      "win32-x64" { version := "1.0.0" } = none :=
  claim2_prerelease_rejected (fun _ => 0)
    { tag_name := "v9.9.9",
      assets := [{ name := "SIIDUserSetup.exe",
                   browser_download_url := "https://x/SIIDUserSetup.exe",
                   digest := some "sha256:abc" }],
      prerelease := true }
    "win32-x64" { version := "1.0.0" } rfl

/-- C8 counterexample: the claim says the observed state after the
initial-state reply is never `Uninitialized`, quantifying over every current
service state; but when a client connects while the service itself is still
`Uninitialized` (before `initialize` has run), the bridge returns
`Uninitialized` and that is exactly what the client observes. -/
theorem claim8_counterexample :
    channelCall State.Uninitialized "_getInitialState"
        = Except.ok (ChannelReply.initialState State.Uninitialized)
    ∧ (UpdateChannelClient.new.receive State.Uninitialized).state.type
        = StateType.Uninitialized :=
  ⟨rfl, rfl⟩

/-- C8 (amended): for every current service state `s`, the bridge's
`_getInitialState` call returns `s` itself (not the next transition), and a
late subscriber that processes the reply observes exactly `s`; hence its
observed state is non-`Uninitialized` whenever the service has left
`Uninitialized`. -/
theorem claim8_initial_state_replay (s : State) (c : UpdateChannelClient) :
    channelCall s "_getInitialState" = Except.ok (ChannelReply.initialState s)
    ∧ (c.receive s).state = s
    ∧ (s.type ≠ StateType.Uninitialized →
        (c.receive s).state.type ≠ StateType.Uninitialized) :=
  ⟨rfl, rfl, fun h => h⟩

theorem claim8_witness :
    channelCall (State.Idle UpdateType.Setup none) "_getInitialState"
        = Except.ok (ChannelReply.initialState (State.Idle UpdateType.Setup none))
    ∧ (UpdateChannelClient.new.receive
        (State.Idle UpdateType.Setup none)).state.type ≠ StateType.Uninitialized :=
  ⟨(claim8_initial_state_replay (State.Idle UpdateType.Setup none)
      UpdateChannelClient.new).1,
   (claim8_initial_state_replay (State.Idle UpdateType.Setup none)
      UpdateChannelClient.new).2.2 (by decide)⟩

/-- C10: on the Windows archive-style path, `downloadUpdate` in state
`AvailableForDownload` opens the update URL externally and transitions
directly back to `Idle`; no `Downloading`, `Downloaded` or `Updating`/`Ready`
state is ever set by this call, and a subsequent `applyUpdate` from the
resulting `Idle` state is a no-op. -/
theorem claim10_archive_download (updateType : UpdateType) (u : IUpdate)
    (link : String) (h : u.url = some link) :
    downloadUpdate (win32DoDownloadUpdate updateType) (State.AvailableForDownload u)
        = (State.Idle updateType none,
           [Event.openExternal link, Event.stateSet (State.Idle updateType none)])
    ∧ (∀ s, Event.stateSet s
          ∈ (downloadUpdate (win32DoDownloadUpdate updateType)
              (State.AvailableForDownload u)).2 →
        s.type ≠ StateType.Downloading ∧ s.type ≠ StateType.Downloaded
          ∧ s.type ≠ StateType.Ready)
    ∧ (∀ doApplyUpdate,
        applyUpdate doApplyUpdate (State.Idle updateType none)
          = (State.Idle updateType none, [])) := by
  refine ⟨?_, ?_, ?_⟩
  · simp [downloadUpdate, win32DoDownloadUpdate, h]
  · intro s hs
    simp [downloadUpdate, win32DoDownloadUpdate, h] at hs
    subst hs
    exact ⟨by simp [State.type], by simp [State.type], by simp [State.type]⟩
  · intro doApplyUpdate
    simp [applyUpdate, State.type]

theorem claim10_witness :
    downloadUpdate (win32DoDownloadUpdate UpdateType.Archive)
        (State.AvailableForDownload
          { version := "v2.0.0", productVersion := "2.0.0",
            url := some "https://x/u.exe" })
      = (State.Idle UpdateType.Archive none,
         [Event.openExternal "https://x/u.exe",
          Event.stateSet (State.Idle UpdateType.Archive none)])
    ∧ applyUpdate (fun _ => (State.Downloading, []))
        (State.Idle UpdateType.Archive none)
      = (State.Idle UpdateType.Archive none, []) :=
  ⟨(claim10_archive_download UpdateType.Archive
      { version := "v2.0.0", productVersion := "2.0.0",
        url := some "https://x/u.exe" } "https://x/u.exe" rfl).1,
   (claim10_archive_download UpdateType.Archive
      { version := "v2.0.0", productVersion := "2.0.0",
        url := some "https://x/u.exe" } "https://x/u.exe" rfl).2.2
     (fun _ => (State.Downloading, []))⟩

/-- Removing the first occurrence of a non-empty pattern from a string that
starts with that very pattern yields the remainder. -/
theorem listReplaceFirst_cancel (pat tail : List Char) (hne : pat ≠ []) :
    listReplaceFirst (pat ++ tail) pat = tail := by
  cases pat with
  | nil => exact absurd rfl hne
  | cons p ps =>
    have h1 : (p :: ps) ++ tail = p :: (ps ++ tail) := List.cons_append p ps tail
    have hpre : (p :: ps).isPrefixOf (p :: (ps ++ tail)) = true :=
      List.isPrefixOf_iff_prefix.mpr (h1 ▸ List.prefix_append (p :: ps) tail)
    have hdrop : List.drop (p :: ps).length (p :: (ps ++ tail)) = tail :=
      h1 ▸ List.drop_left (p :: ps) tail
    rw [h1]
    simp only [listReplaceFirst, List.append_eq]
    simp [hpre, hdrop]

theorem strReplaceFirst_sha256 (tail : String) :
    strReplaceFirst ("sha256:" ++ tail) "sha256:" = tail := by
  unfold strReplaceFirst
  rw [String.data_append, listReplaceFirst_cancel _ _ (by decide)]

/-- C3 counterexample: the claim asserts an unconditionally non-null result
for every non-prerelease release with a matching asset, but the version-gated
variant of `parseGitHubReleaseToUpdate` (the one in
`abstractUpdateService.ts`) returns `null` for such a release when the derived
version is not strictly newer than the running product version: here tag
`v1.0.0` against product version `1.0.0`, with a matching `SIIDUserSetup.exe`
asset. -/
theorem claim3_counterexample :
    parseGitHubReleaseToUpdate (fun _ => 0)
      { tag_name := "v1.0.0",
        assets := [{ name := "SIIDUserSetup.exe",
                     browser_download_url := "https://x/u.exe",
                     digest := some "sha256:abc" }],
        prerelease := false }
      "win32-x64" { version := "1.0.0" } = none
    ∧ findAssetForPlatform
        [{ name := "SIIDUserSetup.exe",
           browser_download_url := "https://x/u.exe",
           digest := some "sha256:abc" }]
        "win32-x64" { version := "1.0.0" }
      = some { name := "SIIDUserSetup.exe",
               browser_download_url := "https://x/u.exe",
               digest := some "sha256:abc" } :=
  ⟨rfl, by decide⟩

/-- C3 (amended): for every non-prerelease release with a matching asset, the
ungated variant returns the descriptor unconditionally, and the gated variant
returns the same descriptor provided the derived version is strictly newer
than the running product version; the descriptor keeps the full tag in
`version`, derives `productVersion` by dropping a single leading `v` (the tag
unchanged when it has none), takes `url` from the selected asset's
`browser_download_url`, and stores the asset digest with the `sha256:`
algorithm prefix stripped (so, for a well-formed `sha256:<hex>` digest, a hash
containing no algorithm prefix). -/
theorem claim3_descriptor_fields (dateGetTime : String → Int)
    (release : GitHubRelease) (platform : String) (product : IProductService)
    (asset : GitHubAsset)
    (hpre : release.prerelease = false)
    (hasset : findAssetForPlatform release.assets platform product = some asset) :
    (Ungated.parseGitHubReleaseToUpdate dateGetTime release platform product
        = some (buildUpdate dateGetTime release asset))
    ∧ (semverGt (derivedVersion release.tag_name) product.version = Except.ok true →
        parseGitHubReleaseToUpdate dateGetTime release platform product
          = some (buildUpdate dateGetTime release asset))
    ∧ (buildUpdate dateGetTime release asset).version = release.tag_name
    ∧ (buildUpdate dateGetTime release asset).url = some asset.browser_download_url
    ∧ (∀ t, release.tag_name = "v" ++ t →
        (buildUpdate dateGetTime release asset).productVersion = t)
    ∧ (strStartsWith release.tag_name "v" = false →
        (buildUpdate dateGetTime release asset).productVersion = release.tag_name)
    ∧ (∀ hex, asset.digest = some ("sha256:" ++ hex) →
        (buildUpdate dateGetTime release asset).sha256hash = some hex
        ∧ (strContains hex "sha256:" = false →
            ∀ v, (buildUpdate dateGetTime release asset).sha256hash = some v →
              strContains v "sha256:" = false)) := by
  refine ⟨?_, ?_, rfl, rfl, ?_, ?_, ?_⟩
  · simp [Ungated.parseGitHubReleaseToUpdate, hpre, hasset]
  · intro hnewer
    simp [parseGitHubReleaseToUpdate, hpre, hasset, hnewer]
  · intro t ht
    obtain ⟨tl⟩ := t
    show derivedVersion release.tag_name = ⟨tl⟩
    rw [ht]
    unfold derivedVersion
    have hv : strStartsWith ("v" ++ (⟨tl⟩ : String)) "v" = true := by
      unfold strStartsWith
      exact List.isPrefixOf_iff_prefix.mpr (by
        show "v".data <+: ("v" ++ (⟨tl⟩ : String)).data
        rw [String.data_append]
        exact List.prefix_append _ _)
    rw [if_pos hv]
    show String.mk (List.drop 1 (("v" ++ (⟨tl⟩ : String)).data)) = ⟨tl⟩
    have h2 : ("v" ++ (⟨tl⟩ : String)).data = 'v' :: tl := rfl
    rw [h2]
    rfl
  · intro hnv
    simp [buildUpdate, derivedVersion, hnv]
  · intro hex hdig
    refine ⟨?_, ?_⟩
    · simp [buildUpdate, hdig, strReplaceFirst_sha256]
    · intro hnc v hv
      have : v = hex := by
        simp [buildUpdate, hdig, strReplaceFirst_sha256] at hv
        exact hv.symm
      rw [this]
      exact hnc

theorem claim3_witness :
    Ungated.parseGitHubReleaseToUpdate (fun _ => 7)
      { tag_name := "v2025.1.0", published_at := "2025-01-01",
        assets := [{ name := "SIIDUserSetup.exe",
                     browser_download_url := "https://x/SIIDUserSetup.exe",
                     digest := some "sha256:abc123" }],
        prerelease := false }
      "win32-x64" { version := "2024.1.0" }
      = some { version := "v2025.1.0", productVersion := "2025.1.0",
               timestamp := some 7, url := some "https://x/SIIDUserSetup.exe",
               sha256hash := some "abc123" }
    ∧ parseGitHubReleaseToUpdate (fun _ => 7)
      { tag_name := "v2025.1.0", published_at := "2025-01-01",
        assets := [{ name := "SIIDUserSetup.exe",
                     browser_download_url := "https://x/SIIDUserSetup.exe",
                     digest := some "sha256:abc123" }],
        prerelease := false }
      "win32-x64" { version := "2024.1.0" }
      = some { version := "v2025.1.0", productVersion := "2025.1.0",
               timestamp := some 7, url := some "https://x/SIIDUserSetup.exe",
               sha256hash := some "abc123" } := by
  have h := claim3_descriptor_fields (fun _ => 7)
    { tag_name := "v2025.1.0", published_at := "2025-01-01",
      assets := [{ name := "SIIDUserSetup.exe",
                   browser_download_url := "https://x/SIIDUserSetup.exe",
                   digest := some "sha256:abc123" }],
      prerelease := false }
    "win32-x64" { version := "2024.1.0" }
    { name := "SIIDUserSetup.exe",
      browser_download_url := "https://x/SIIDUserSetup.exe",
      digest := some "sha256:abc123" }
    rfl (by decide)
  exact ⟨h.1.trans rfl, (h.2.1 rfl).trans rfl⟩

/-- C4: on a Windows platform (one that does not also carry the Linux/macOS
markers the source would fall through to), asset selection is the three-level
cascade the claim describes: for target `user`, the first asset literally
named `SIIDUserSetup.exe`, else the first whose name contains
`UserSetup.exe`, else the first `.exe` asset that is not a `.sha256` sidecar,
else `none`; symmetrically via the system-setup names for any other target;
and the `.exe` fallback never selects a name ending in `.sha256`. -/
theorem claim4_windows_asset_selection (assets : List GitHubAsset)
    (platform : String) (product : IProductService)
    (hwin : strStartsWith platform "win32" = true)
    (hlin : strContains platform "linux" = false)
    (hdar : strContains platform "darwin" = false) :
    (product.target = "user" →
      findAssetForPlatform assets platform product
        = ((assets.find? (fun asset => asset.name = "SIIDUserSetup.exe"))
            <|> (assets.find? (fun asset => strContains asset.name "UserSetup.exe"))
            <|> (assets.find? (fun asset =>
                  strEndsWith asset.name ".exe" && !strEndsWith asset.name ".sha256"))))
    ∧ (product.target ≠ "user" →
      findAssetForPlatform assets platform product
        = ((assets.find? (fun asset => asset.name = "SIIDSystemSetup.exe"))
            <|> (assets.find? (fun asset => strContains asset.name "SystemSetup.exe"))
            <|> (assets.find? (fun asset =>
                  strEndsWith asset.name ".exe" && !strEndsWith asset.name ".sha256"))))
    ∧ (∀ a, assets.find? (fun asset =>
          strEndsWith asset.name ".exe" && !strEndsWith asset.name ".sha256") = some a →
        strEndsWith a.name ".sha256" = false) := by
  refine ⟨?_, ?_, ?_⟩
  · intro ht
    simp only [findAssetForPlatform, hwin, ht, hlin, hdar, if_true, if_false]
    cases h1 : assets.find? (fun asset => asset.name = "SIIDUserSetup.exe") <;>
      cases h2 : assets.find? (fun asset => strContains asset.name "UserSetup.exe") <;>
        cases h3 : assets.find? (fun asset =>
            strEndsWith asset.name ".exe" && !strEndsWith asset.name ".sha256") <;>
          simp [h1, h2, h3, HOrElse.hOrElse, OrElse.orElse, Option.orElse]
  · intro ht
    simp only [findAssetForPlatform, hwin, ht, hlin, hdar, if_true, if_false]
    cases h1 : assets.find? (fun asset => asset.name = "SIIDSystemSetup.exe") <;>
      cases h2 : assets.find? (fun asset => strContains asset.name "SystemSetup.exe") <;>
        cases h3 : assets.find? (fun asset =>
            strEndsWith asset.name ".exe" && !strEndsWith asset.name ".sha256") <;>
          simp [h1, h2, h3, HOrElse.hOrElse, OrElse.orElse, Option.orElse]
  · intro a ha
    have hp := List.find?_some ha
    simp only [Bool.and_eq_true, Bool.not_eq_true'] at hp
    exact hp.2

theorem claim4_witness :
    findAssetForPlatform
      [{ name := "other.exe.sha256", browser_download_url := "u1" },
       { name := "SIID-2.0.0-UserSetup.exe", browser_download_url := "u2" },
       { name := "SIIDUserSetup.exe", browser_download_url := "u3" }]
      "win32-x64" { version := "1.0.0", target := "user" }
      = some { name := "SIIDUserSetup.exe", browser_download_url := "u3" } := by
  have h := (claim4_windows_asset_selection
    [{ name := "other.exe.sha256", browser_download_url := "u1" },
     { name := "SIID-2.0.0-UserSetup.exe", browser_download_url := "u2" },
     { name := "SIIDUserSetup.exe", browser_download_url := "u3" }]
    "win32-x64" { version := "1.0.0", target := "user" }
    (by decide) (by decide) (by decide)).1 rfl
  rw [h]
  decide

/-- C5: the two observed variants of `parseGitHubReleaseToUpdate` differ
exactly on the version gate.  Whenever the semantic-version comparison deems
the derived version strictly newer, the two variants agree; on a
non-prerelease release with a matching asset whose derived version is not
strictly newer — or whose comparison throws — the gated variant returns
`none` while the ungated variant returns the descriptor. -/
theorem claim5_variants_differ_on_gate (dateGetTime : String → Int)
    (release : GitHubRelease) (platform : String) (product : IProductService) :
    (semverGt (derivedVersion release.tag_name) product.version = Except.ok true →
      parseGitHubReleaseToUpdate dateGetTime release platform product
        = Ungated.parseGitHubReleaseToUpdate dateGetTime release platform product)
    ∧ (release.prerelease = false →
      ∀ asset, findAssetForPlatform release.assets platform product = some asset →
        (semverGt (derivedVersion release.tag_name) product.version = Except.ok false →
          parseGitHubReleaseToUpdate dateGetTime release platform product = none
          ∧ Ungated.parseGitHubReleaseToUpdate dateGetTime release platform product
              = some (buildUpdate dateGetTime release asset))
        ∧ (∀ e, semverGt (derivedVersion release.tag_name) product.version
              = Except.error e →
          parseGitHubReleaseToUpdate dateGetTime release platform product = none
          ∧ Ungated.parseGitHubReleaseToUpdate dateGetTime release platform product
              = some (buildUpdate dateGetTime release asset))) := by
  refine ⟨?_, ?_⟩
  · intro hok
    cases hpre : release.prerelease with
    | true =>
      simp [parseGitHubReleaseToUpdate, Ungated.parseGitHubReleaseToUpdate, hpre]
    | false =>
      cases hfa : findAssetForPlatform release.assets platform product with
      | none =>
        simp [parseGitHubReleaseToUpdate, Ungated.parseGitHubReleaseToUpdate,
          hpre, hfa]
      | some asset =>
        simp [parseGitHubReleaseToUpdate, Ungated.parseGitHubReleaseToUpdate,
          hpre, hfa, hok]
  · intro hpre asset hfa
    refine ⟨fun hfalse => ⟨?_, ?_⟩, fun e herr => ⟨?_, ?_⟩⟩
    · simp [parseGitHubReleaseToUpdate, hpre, hfa, hfalse]
    · simp [Ungated.parseGitHubReleaseToUpdate, hpre, hfa]
    · simp [parseGitHubReleaseToUpdate, hpre, hfa, herr]
    · simp [Ungated.parseGitHubReleaseToUpdate, hpre, hfa]

theorem claim5_witness :
    parseGitHubReleaseToUpdate (fun _ => 0)
      { tag_name := "v1.0.0",
        assets := [{ name := "SIIDUserSetup.exe",
                     browser_download_url := "https://x/u.exe" }],
        prerelease := false }
      "win32-x64" { version := "1.0.0" } = none
    ∧ Ungated.parseGitHubReleaseToUpdate (fun _ => 0)
      { tag_name := "v1.0.0",
        assets := [{ name := "SIIDUserSetup.exe",
                     browser_download_url := "https://x/u.exe" }],
        prerelease := false }
      "win32-x64" { version := "1.0.0" }
      = some { version := "v1.0.0", productVersion := "1.0.0",
               timestamp := some 0, url := some "https://x/u.exe",
               sha256hash := none } := by
  have h := ((claim5_variants_differ_on_gate (fun _ => 0)
    { tag_name := "v1.0.0",
      assets := [{ name := "SIIDUserSetup.exe",
                   browser_download_url := "https://x/u.exe" }],
      prerelease := false }
    "win32-x64" { version := "1.0.0" }).2 rfl
    { name := "SIIDUserSetup.exe", browser_download_url := "https://x/u.exe" }
    (by decide)).1 rfl
  exact ⟨h.1, h.2.trans rfl⟩

/-- Folding the last-set-state accumulator over file-removal events leaves the
accumulator unchanged. -/
theorem lastStateSet_fold_fileRemove (l : List String) (acc : Option State) :
    List.foldl
      (fun acc e => match e with | Event.stateSet s => some s | _ => acc)
      acc (l.map Event.fileRemove) = acc := by
  induction l generalizing acc with
  | nil => rfl
  | cons x xs ih => simpa using ih acc

/-- C6 (amended): in a setup-style Windows check cycle whose selected update
carries a sha256 digest that the downloaded file fails to match, the download
is treated as a failure: the cycle's trace is exactly check → feed request →
`Downloading` → cleanup of stale cache entries → artifact request → write of
the partial `.tmp` file → telemetry → revert to `Idle` (with a message only
when the check was explicit).  No `Ready` state is ever set in that cycle, and
the partial file is not removed: the only removals are the cleanup pass's,
which delete pre-existing cache entries before the partial file is written. -/
theorem claim6_checksum_mismatch (env : Win32Env) (explicit : Bool)
    (baseUrl : String) (release : GitHubRelease) (u : IUpdate)
    (hurl : env.url = some baseUrl)
    (hgh : env.isGitHub = true)
    (hresp : env.githubResponse = Except.ok release)
    (hparse : parseGitHubReleaseToUpdate env.dateGetTime release
        (winPlatform env.arch env.updateType env.product.target) env.product
      = some u)
    (hvalid : (isTruthy u.url && !u.version.isEmpty && !u.productVersion.isEmpty)
      = true)
    (htype : env.updateType = UpdateType.Setup)
    (hnc : env.cacheDir.contains (packageFileName env.product.quality u.version)
      = false)
    (hdl : env.downloadOutcome = Except.ok ())
    (hhash : isTruthy u.sha256hash = true)
    (hmm : env.digestMatches = false) :
    win32DoCheckForUpdates env explicit
      = [Event.stateSet (State.CheckingForUpdates explicit),
         Event.request (if explicit then baseUrl else baseUrl ++ "?bg=true"),
         Event.stateSet State.Downloading]
        ++ cleanupEvents env.cacheDir env.product.quality u.version
        ++ [Event.request (u.url.getD ""),
            Event.fileWrite (packageFileName env.product.quality u.version ++ ".tmp"),
            Event.telemetry (env.hashFn "Hash mismatch"),
            Event.stateSet (State.Idle UpdateType.Setup
              (if explicit then some "Hash mismatch" else none))]
    ∧ (∀ v, Event.stateSet (State.Ready v) ∉ win32DoCheckForUpdates env explicit)
    ∧ (∀ p, Event.fileRemove p ∈ win32DoCheckForUpdates env explicit →
        p ∈ env.cacheDir)
    ∧ lastStateSet (win32DoCheckForUpdates env explicit)
        = some (State.Idle UpdateType.Setup
            (if explicit then some "Hash mismatch" else none)) := by
  have htrace : win32DoCheckForUpdates env explicit
      = [Event.stateSet (State.CheckingForUpdates explicit),
         Event.request (if explicit then baseUrl else baseUrl ++ "?bg=true"),
         Event.stateSet State.Downloading]
        ++ cleanupEvents env.cacheDir env.product.quality u.version
        ++ [Event.request (u.url.getD ""),
            Event.fileWrite (packageFileName env.product.quality u.version ++ ".tmp"),
            Event.telemetry (env.hashFn "Hash mismatch"),
            Event.stateSet (State.Idle UpdateType.Setup
              (if explicit then some "Hash mismatch" else none))] := by
    rw [htype] at hparse
    simp only [Bool.and_eq_true, Bool.not_eq_true'] at hvalid
    obtain ⟨⟨hv1, hv2⟩, hv3⟩ := hvalid
    have hnc2 : packageFileName env.product.quality u.version ∉ env.cacheDir := by
      simpa using hnc
    simp only [win32DoCheckForUpdates, hurl, hgh, hresp, Except.map, htype,
      hparse, hdl, hmm, checksumVerify]
    simp [hv1, hv2, hv3, hnc2, hhash]
  refine ⟨htrace, ?_, ?_, ?_⟩
  · intro v
    rw [htrace]
    simp [cleanupEvents, List.mem_append, List.mem_map]
  · intro p hp
    rw [htrace] at hp
    simp only [cleanupEvents, List.mem_append, List.mem_map, List.mem_filter,
      List.mem_cons, List.not_mem_nil, or_false, reduceCtorEq,
      Event.fileRemove.injEq, false_or] at hp
    rcases hp with ⟨q, ⟨hq1, _⟩, hq3⟩
    exact hq3 ▸ hq1
  · rw [htrace]
    unfold lastStateSet
    rw [List.foldl_append, List.foldl_append, cleanupEvents,
      lastStateSet_fold_fileRemove]
    rfl

/-- C6 counterexample: the claim says the cached partial file is removed in
the failing cycle; at this concrete input (empty cache, explicit check,
mismatching digest) the failing cycle performs no file removal at all — the
partial `.tmp` file it wrote stays on disk — even though the state does revert
to `Idle` and `Ready` is never reached. -/
theorem claim6_counterexample :
    (win32DoCheckForUpdates
      { url := some "https://api.github.com/repos/s/siid/releases/latest",
        isGitHub := true, arch := "x64",
        product := { version := "1.0.0", quality := "stable", target := "user" },
        updateType := UpdateType.Setup,
        githubResponse := Except.ok
          { tag_name := "v2.0.0",
            assets := [{ name := "SIIDUserSetup.exe",
                         browser_download_url := "https://x/u.exe",
                         digest := some "sha256:abc" }],
            prerelease := false },
        vendorResponse := Except.error "unused",
        cacheDir := [],
        downloadOutcome := Except.ok (),
        digestMatches := false,
        fastUpdatesEnabled := false,
        dateGetTime := fun _ => 0,
        hashFn := fun _ => 42 } true).all (fun e => !e.isFileRemove) = true
    ∧ Event.fileWrite "CodeSetup-stable-v2.0.0.exe.tmp"
        ∈ win32DoCheckForUpdates
      { url := some "https://api.github.com/repos/s/siid/releases/latest",
        isGitHub := true, arch := "x64",
        product := { version := "1.0.0", quality := "stable", target := "user" },
        updateType := UpdateType.Setup,
        githubResponse := Except.ok
          { tag_name := "v2.0.0",
            assets := [{ name := "SIIDUserSetup.exe",
                         browser_download_url := "https://x/u.exe",
                         digest := some "sha256:abc" }],
            prerelease := false },
        vendorResponse := Except.error "unused",
        cacheDir := [],
        downloadOutcome := Except.ok (),
        digestMatches := false,
        fastUpdatesEnabled := false,
        dateGetTime := fun _ => 0,
        hashFn := fun _ => 42 } true
    ∧ lastStateSet (win32DoCheckForUpdates
      { url := some "https://api.github.com/repos/s/siid/releases/latest",
        isGitHub := true, arch := "x64",
        product := { version := "1.0.0", quality := "stable", target := "user" },
        updateType := UpdateType.Setup,
        githubResponse := Except.ok
          { tag_name := "v2.0.0",
            assets := [{ name := "SIIDUserSetup.exe",
                         browser_download_url := "https://x/u.exe",
                         digest := some "sha256:abc" }],
            prerelease := false },
        vendorResponse := Except.error "unused",
        cacheDir := [],
        downloadOutcome := Except.ok (),
        digestMatches := false,
        fastUpdatesEnabled := false,
        dateGetTime := fun _ => 0,
        hashFn := fun _ => 42 } true)
      = some (State.Idle UpdateType.Setup (some "Hash mismatch")) := by
  refine ⟨by decide, by decide, by decide⟩

theorem claim6_witness :
    win32DoCheckForUpdates
      { url := some "https://api.github.com/repos/s/siid/releases/latest",
        isGitHub := true, arch := "x64",
        product := { version := "1.0.0", quality := "stable", target := "user" },
        updateType := UpdateType.Setup,
        githubResponse := Except.ok
          { tag_name := "v2.0.0",
            assets := [{ name := "SIIDUserSetup.exe",
                         browser_download_url := "https://x/u.exe",
                         digest := some "sha256:abc" }],
            prerelease := false },
        vendorResponse := Except.error "unused",
        cacheDir := ["CodeSetup-stable-v1.0.0.exe"],
        downloadOutcome := Except.ok (),
        digestMatches := false,
        fastUpdatesEnabled := false,
        dateGetTime := fun _ => 0,
        hashFn := fun _ => 42 } true
      = [Event.stateSet (State.CheckingForUpdates true),
         Event.request "https://api.github.com/repos/s/siid/releases/latest",
         Event.stateSet State.Downloading,
         Event.fileRemove "CodeSetup-stable-v1.0.0.exe",
         Event.request "https://x/u.exe",
         Event.fileWrite "CodeSetup-stable-v2.0.0.exe.tmp",
         Event.telemetry 42,
         Event.stateSet (State.Idle UpdateType.Setup (some "Hash mismatch"))] := by
  have h := (claim6_checksum_mismatch
    { url := some "https://api.github.com/repos/s/siid/releases/latest",
      isGitHub := true, arch := "x64",
      product := { version := "1.0.0", quality := "stable", target := "user" },
      updateType := UpdateType.Setup,
      githubResponse := Except.ok
        { tag_name := "v2.0.0",
          assets := [{ name := "SIIDUserSetup.exe",
                       browser_download_url := "https://x/u.exe",
                       digest := some "sha256:abc" }],
          prerelease := false },
      vendorResponse := Except.error "unused",
      cacheDir := ["CodeSetup-stable-v1.0.0.exe"],
      downloadOutcome := Except.ok (),
      digestMatches := false,
      fastUpdatesEnabled := false,
      dateGetTime := fun _ => 0,
      hashFn := fun _ => 42 } true
    "https://api.github.com/repos/s/siid/releases/latest"
    { tag_name := "v2.0.0",
      assets := [{ name := "SIIDUserSetup.exe",
                   browser_download_url := "https://x/u.exe",
                   digest := some "sha256:abc" }],
      prerelease := false }
    { version := "v2.0.0", productVersion := "2.0.0", timestamp := some 0,
      url := some "https://x/u.exe", sha256hash := some "abc" }
    rfl rfl rfl rfl (by decide) rfl (by decide) rfl (by decide) rfl).1
  exact h.trans (by decide)

/-- C7 counterexample: the claim says a background (`explicit = false`) check
failure produces `Idle` with no message attached; on the Darwin GitHub path a
background check whose feed request fails reverts to `Idle` carrying the error
message anyway. -/
theorem claim7_counterexample :
    darwinDoCheckForUpdates
      { url := some "https://api.github.com/repos/s/siid/releases/latest",
        isGitHub := true, arch := "arm64",
        product := { version := "1.0.0" },
        githubResponse := Except.error "network down",
        dateGetTime := fun _ => 0 } false
      = [Event.stateSet (State.CheckingForUpdates false),
         Event.request "https://api.github.com/repos/s/siid/releases/latest?bg=true",
         Event.stateSet (State.Idle UpdateType.Archive (some "network down"))] := by
  decide

/-- C7 (amended): feed failures during a check are caught at the state-machine
boundary — the embedded cycles are total and end by setting a state rather
than rethrowing.  On the Win32 path the cycle records exactly one telemetry
event carrying only a hash of the error message, and reverts to `Idle` with
the message attached iff the check was explicit.  On the Darwin GitHub path
the cycle reverts to `Idle` with the error message attached unconditionally
(also for background checks), and records no telemetry. -/
theorem claim7_error_channel (envW : Win32Env) (envD : DarwinEnv)
    (explicit : Bool) (errW errD baseW baseD : String) :
    (envW.url = some baseW → envW.isGitHub = true →
      envW.githubResponse = Except.error errW →
      win32DoCheckForUpdates envW explicit
        = [Event.stateSet (State.CheckingForUpdates explicit),
           Event.request (if explicit then baseW else baseW ++ "?bg=true"),
           Event.telemetry (envW.hashFn errW),
           Event.stateSet (State.Idle envW.updateType
             (if explicit then some errW else none))])
    ∧ (envD.url = some baseD → envD.isGitHub = true →
      envD.githubResponse = Except.error errD →
      darwinDoCheckForUpdates envD explicit
        = [Event.stateSet (State.CheckingForUpdates explicit),
           Event.request (if explicit then baseD else baseD ++ "?bg=true"),
           Event.stateSet (State.Idle UpdateType.Archive (some errD))]) := by
  constructor
  · intro h1 h2 h3
    simp [win32DoCheckForUpdates, h1, h2, h3, Except.map]
  · intro h1 h2 h3
    simp [darwinDoCheckForUpdates, h1, h2, h3]

theorem claim7_witness :
    win32DoCheckForUpdates
      { url := some "https://u/feed", isGitHub := true, arch := "x64",
        product := { version := "1.0.0" }, updateType := UpdateType.Setup,
        githubResponse := Except.error "boom",
        vendorResponse := Except.error "unused", cacheDir := [],
        downloadOutcome := Except.ok (), digestMatches := true,
        fastUpdatesEnabled := false, dateGetTime := fun _ => 0,
        hashFn := fun _ => 9 } false
      = [Event.stateSet (State.CheckingForUpdates false),
         Event.request "https://u/feed?bg=true",
         Event.telemetry 9,
         Event.stateSet (State.Idle UpdateType.Setup none)]
    ∧ darwinDoCheckForUpdates
      { url := some "https://u/feed", isGitHub := true, arch := "x64",
        product := { version := "1.0.0" },
        githubResponse := Except.error "boom",
        dateGetTime := fun _ => 0 } false
      = [Event.stateSet (State.CheckingForUpdates false),
         Event.request "https://u/feed?bg=true",
         Event.stateSet (State.Idle UpdateType.Archive (some "boom"))] := by
  have h := claim7_error_channel
    { url := some "https://u/feed", isGitHub := true, arch := "x64",
      product := { version := "1.0.0" }, updateType := UpdateType.Setup,
      githubResponse := Except.error "boom",
      vendorResponse := Except.error "unused", cacheDir := [],
      downloadOutcome := Except.ok (), digestMatches := true,
      fastUpdatesEnabled := false, dateGetTime := fun _ => 0,
      hashFn := fun _ => 9 }
    { url := some "https://u/feed", isGitHub := true, arch := "x64",
      product := { version := "1.0.0" },
      githubResponse := Except.error "boom",
      dateGetTime := fun _ => 0 }
    false "boom" "boom" "https://u/feed" "https://u/feed"
  exact ⟨(h.1 rfl rfl rfl).trans (by decide), (h.2 rfl rfl rfl).trans (by decide)⟩

/-- C9 counterexample: the claim says a definite boolean is returned only when
the feed was fetched and interpreted successfully; but with a feed URL
configured and `update.mode` set to `none`, `isLatestVersion` returns the
definite boolean `false` without issuing any feed request at all. -/
theorem claim9_counterexample :
    (isLatestVersion
      { url := some "https://api.github.com/repos/s/siid/releases/latest",
        mode := UpdateMode.noneMode, isGitHub := true,
        githubResponse := Except.error "ignored",
        vendorStatus := Except.error "ignored",
        product := { version := "1.0.0" } } State.Downloading).1
      = ⟨some false, []⟩ := by
  decide

/-- C9 (amended): `isLatestVersion` never mutates the state machine's state;
with a configured URL it returns `undefined` (`none`) whenever the feed
request or response interpretation fails (GitHub and vendor paths alike,
provided `update.mode` is not `none`), and it returns `undefined` when no URL
is configured.  A definite boolean is returned only when the feed was fetched
— with the one exception that `update.mode = none` short-circuits to `false`
without any request. -/
theorem claim9_isLatestVersion (env : IsLatestEnv) (s : State) :
    ((isLatestVersion env s).2 = s)
    ∧ (env.url = none → (isLatestVersion env s).1.value = none)
    ∧ (∀ url e, env.url = some url → env.mode ≠ UpdateMode.noneMode →
        env.isGitHub = true → env.githubResponse = Except.error e →
        (isLatestVersion env s).1 = ⟨none, [Event.request url]⟩)
    ∧ (∀ url e, env.url = some url → env.mode ≠ UpdateMode.noneMode →
        env.isGitHub = false → env.vendorStatus = Except.error e →
        (isLatestVersion env s).1 = ⟨none, [Event.request url]⟩)
    ∧ (∀ url, env.url = some url → env.mode = UpdateMode.noneMode →
        (isLatestVersion env s).1 = ⟨some false, []⟩)
    ∧ (∀ url b, env.url = some url → env.mode ≠ UpdateMode.noneMode →
        (isLatestVersion env s).1.value = some b →
        (isLatestVersion env s).1.events = [Event.request url]) := by
  refine ⟨?_, ?_, ?_, ?_, ?_, ?_⟩
  · unfold isLatestVersion
    cases env.url with
    | none => rfl
    | some url =>
      simp only
      split
      · rfl
      · split
        · cases env.githubResponse with
          | error e => rfl
          | ok r =>
            simp only
            split
            · rfl
            · cases semverGt (derivedVersion r.tag_name) env.product.version with
              | error e => rfl
              | ok g => rfl
        · cases env.vendorStatus with
          | error e => rfl
          | ok c => rfl
  · intro h
    simp [isLatestVersion, h]
  · intro url e h1 h2 h3 h4
    simp [isLatestVersion, h1, h2, h3, h4]
  · intro url e h1 h2 h3 h4
    simp [isLatestVersion, h1, h2, h3, h4]
  · intro url h1 h2
    simp [isLatestVersion, h1, h2]
  · intro url b h1 h2 hv
    cases hg : env.isGitHub with
    | true =>
      cases hr : env.githubResponse with
      | error e => simp [isLatestVersion, h1, h2, hg, hr] at hv
      | ok r =>
        cases hp : r.prerelease with
        | true => simp [isLatestVersion, h1, h2, hg, hr, hp]
        | false =>
          cases hsv : semverGt (derivedVersion r.tag_name) env.product.version with
          | error e => simp [isLatestVersion, h1, h2, hg, hr, hp, hsv] at hv
          | ok g => simp [isLatestVersion, h1, h2, hg, hr, hp, hsv]
    | false =>
      cases hvs : env.vendorStatus with
      | error e => simp [isLatestVersion, h1, h2, hg, hvs] at hv
      | ok c => simp [isLatestVersion, h1, h2, hg, hvs]

theorem claim9_witness :
    (isLatestVersion
      { url := some "https://u/feed", mode := UpdateMode.defaultMode,
        isGitHub := true, githubResponse := Except.error "boom",
        vendorStatus := Except.error "unused",
        product := { version := "1.0.0" } } State.Downloading).1
      = ⟨none, [Event.request "https://u/feed"]⟩
    ∧ (isLatestVersion
      { url := some "https://u/feed", mode := UpdateMode.defaultMode,
        isGitHub := true, githubResponse := Except.error "boom",
        vendorStatus := Except.error "unused",
        product := { version := "1.0.0" } } State.Downloading).2
      = State.Downloading := by
  have h := claim9_isLatestVersion
    { url := some "https://u/feed", mode := UpdateMode.defaultMode,
      isGitHub := true, githubResponse := Except.error "boom",
      vendorStatus := Except.error "unused",
      product := { version := "1.0.0" } } State.Downloading
  exact ⟨h.2.2.1 "https://u/feed" "boom" rfl (by decide) rfl rfl, h.1⟩

end Siid
